import Mathlib

set_option autoImplicit false

/-!
Shallow embedding of `nixos_update_reminder.py` (a single-file utility that
queries NixOS hosts for the nixpkgs revision they run, resolves each revision
to its commit author date through an on-disk cache with network fallback, and
reports stale hosts).

Machine-level conventions of the embedding:
* datetimes and timedeltas are modelled as `Int` seconds;
* external behaviour (subprocesses, the network, the on-disk cache) is
  supplied as explicit parameters, and the asyncio timeout/cancellation
  structure of the source is reflected as explicit deadline arithmetic;
* fallible paths return `Option`/`Except` values.
-/

/-! ## Data model -/

/-- Embeds `RevisionResult` (source line 293): the outcome of querying one
host, either a revision string (`error = false`) or a diagnostic message
(`error = true`). -/
structure RevisionResult where
  revision_or_message : String
  error : Bool
deriving DecidableEq

/-- The whitespace set stripped by Python `bytes.strip()`:
space, tab, newline, carriage return, vertical tab, form feed. -/
def isPyWhitespace (c : Char) : Bool :=
  c == ' ' || c == '\t' || c == '\n' || c == '\r' || c == Char.ofNat 11 || c == Char.ofNat 12

/-- Embeds Python `bytes.strip()`: drop leading and trailing whitespace. -/
def pyStrip (s : String) : String :=
  String.mk (((s.data.dropWhile isPyWhitespace).reverse.dropWhile isPyWhitespace).reverse)

/-- Embeds the success condition of Python `bytes.decode("ascii")`:
every code point is at most 127. -/
def isAscii (s : String) : Bool :=
  s.data.all (fun c => c.toNat ≤ 127)

/-! ## Host query phase (`get_nixos_revision`, `get_all_nixos_revisions`) -/

/-- The externally observable behaviour of one host's query process:
whether `asyncio.create_subprocess_exec` succeeds, the wall-clock time at
which the process would deliver its output and exit status, the text it
prints to stdout, and its exit code. -/
structure ProcBehavior where
  spawnOk : Bool
  finishTime : Nat
  stdout : String
  exitCode : Int
deriving DecidableEq

/-- The exceptions that can escape `get_nixos_revision` (source lines
267-290): cancellation by the surrounding deadline (either raised directly
or as the `__context__` of the `CalledProcessError` raised by the `finally`
block after the escalation kill), the spawn failure re-raised at line 277,
`subprocess.CalledProcessError` for a non-zero exit (line 289), and
`UnicodeDecodeError` from `.decode("ascii")` (line 290). -/
inductive QueryExc where
  | cancelled
  | spawnFail
  | badExit (rc : Int)
  | decodeError
deriving DecidableEq

/-- Embeds `get_nixos_revision` (source lines 267-290) run under a deadline
(`asyncio.wait_for` in `get_all_nixos_revisions`): spawn failure re-raises;
a process still running at the deadline is cancelled (the escalation
protocol of `increasingly_kill_process` then reaps it, and the exception
that finally escapes has a `CancelledError` in its context); a non-zero
exit raises `CalledProcessError`; otherwise the stripped stdout is decoded
as ASCII and returned. -/
def get_nixos_revision (deadline : Nat) (b : ProcBehavior) : Except QueryExc String :=
  if b.spawnOk = false then Except.error QueryExc.spawnFail
  else if deadline < b.finishTime then Except.error QueryExc.cancelled
  else if b.exitCode ≠ 0 then Except.error (QueryExc.badExit b.exitCode)
  else if isAscii (pyStrip b.stdout) then Except.ok (pyStrip b.stdout)
  else Except.error QueryExc.decodeError

/-- Embeds the per-host closure `run_and_store` of `get_all_nixos_revisions`
(source lines 304-322): a successful query is stored as
`RevisionResult(revision, error=False)`; a `CancelledError` (directly, or as
the `__context__` of the exception raised while handling it) is stored as
`RevisionResult("query timed out", error=True)` after the 5 second settle
sleep; every other exception — including the spawn failure — is stored as
`RevisionResult("cannot query", error=True)`. -/
def run_and_store (deadline : Nat) (b : ProcBehavior) : RevisionResult :=
  match get_nixos_revision deadline b with
  | Except.ok rev => RevisionResult.mk rev false
  | Except.error QueryExc.cancelled => RevisionResult.mk "query timed out" true
  | Except.error _ => RevisionResult.mk "cannot query" true

/-- Embeds `get_all_nixos_revisions` (source lines 298-332):
`asyncio.wait_for(asyncio.gather(...), timeout)` runs `run_and_store`
concurrently for every host under the shared deadline; every task records
an entry for its host (the cancellation branch writes one too) before the
function returns its `results` dict, modelled as an association list in
host order. -/
def get_all_nixos_revisions (deadline : Nat) (hosts : List (String × ProcBehavior)) :
    List (String × RevisionResult) :=
  hosts.map (fun hb => (hb.1, run_and_store deadline hb.2))

/-! ## Commit cache and resolver
(`update_commit_info`, `get_commit_info`, `get_author_date`) -/

/-- The part of a cached commit-metadata JSON document that the program
reads: the `sha` field (`none` when absent) and the `commit.author.date`
field after `datetime.fromisoformat`, with `none` when the path is missing
or the value unparsable (`KeyError`/`TypeError`/`ValueError` are treated
identically by the source). -/
structure CommitInfo where
  sha : Option String
  date : Option Int
deriving DecidableEq

/-- The behaviour of one network fetch of commit metadata: how long the
HTTP request would take, and the parsed document it yields (`none` models
an HTTP error response). -/
structure FetchSpec where
  duration : Nat
  result : Option CommitInfo
deriving DecidableEq

/-- The state threaded through the cache code for one commit hash: the
on-disk cache entry (`none` when the file is absent or undecodable JSON)
and the number of network fetches performed so far. -/
structure SysState where
  entry : Option CommitInfo
  fetches : Nat
deriving DecidableEq

/-- Embeds `update_commit_info` (source lines 149-199): perform the network
fetch under `asyncio.wait_for(..., timeout)`; on timeout return `None`
having spent the full timeout; on an HTTP error return `None`; on success
write the document atomically into the cache (temp file + `os.replace`) and
return it.  Returns (value, new state, elapsed seconds). -/
def update_commit_info (net : Nat → FetchSpec) (t : Nat) (s : SysState) :
    Option CommitInfo × SysState × Nat :=
  let f := net s.fetches
  if t < f.duration then
    (none, SysState.mk s.entry (s.fetches + 1), t)
  else
    match f.result with
    | none => (none, SysState.mk s.entry (s.fetches + 1), f.duration)
    | some doc => (some doc, SysState.mk (some doc) (s.fetches + 1), f.duration)

/-- Embeds `get_commit_info` (source lines 202-211): read the cache file
for the hash; if it parses and its `sha` field equals the requested commit,
return it (no fetch, no elapsed time); on `AssertionError`,
`FileNotFoundError` or `JSONDecodeError` fall through to
`update_commit_info`. -/
def get_commit_info (commit : String) (net : Nat → FetchSpec) (t : Nat) (s : SysState) :
    Option CommitInfo × SysState × Nat :=
  match s.entry with
  | some info =>
      if info.sha = some commit then (some info, s, 0)
      else update_commit_info net t s
  | none => update_commit_info net t s

/-- Embeds `get_author_date` when called with
`_get_commit_info=update_commit_info` (the forced-fetch retry, source lines
227-231): fetch, and if the document is absent or its date is malformed
return `None` — the `_get_commit_info is update_commit_info` test at line
227 prevents any further retry. -/
def get_author_date_forced (net : Nat → FetchSpec) (t : Nat) (s : SysState) :
    Option Int × SysState × Nat :=
  match update_commit_info net t s with
  | (none, s1, e1) => (none, s1, e1)
  | (some doc, s1, e1) => (doc.date, s1, e1)

/-- Embeds `get_author_date` (source lines 214-231) with the default
`_get_commit_info=get_commit_info`: consult the cache; `None` metadata
means the fetch already happened and failed, so give up; a parsable
`commit.author.date` is returned; a malformed date triggers exactly one
retry with a forced fetch. -/
def get_author_date (commit : String) (net : Nat → FetchSpec) (t : Nat) (s : SysState) :
    Option Int × SysState × Nat :=
  match get_commit_info commit net t s with
  | (none, s1, e1) => (none, s1, e1)
  | (some doc, s1, e1) =>
      match doc.date with
      | some d => (some d, s1, e1)
      | none =>
          match get_author_date_forced net t s1 with
          | (r2, s2, e2) => (r2, s2, e1 + e2)

/-- Embeds the per-host closure `get_and_store` of `async_main` (source
lines 412-420): hosts whose query errored are skipped; otherwise the
revision string is resolved with `get_author_date` under the HTTP timeout,
and the date (when present) is stored. -/
def get_and_store (net : Nat → FetchSpec) (t : Nat) (res : RevisionResult) (s : SysState) :
    Option Int × SysState × Nat :=
  if res.error then (none, s, 0)
  else get_author_date res.revision_or_message net t s

/-- Embeds the commit-resolution phase of `async_main` (source lines
422-425): `await asyncio.gather(*starmap(get_and_store, revisions.items()))`
with no `asyncio.wait_for` around it.  The tasks run concurrently (their
network waits overlap), each against its own host's cache/network
environment, so the wall-clock time of the phase is the maximum of the
per-task elapsed times.  Returns the per-host resolved dates and that
elapsed time. -/
def resolution_phase (net : String → Nat → FetchSpec) (t : Nat) (caches : String → SysState)
    (revisions : List (String × RevisionResult)) :
    List (String × Option Int) × Nat :=
  let runs := revisions.map (fun hr => (hr.1, get_and_store (net hr.1) t hr.2 (caches hr.1)))
  (runs.map (fun hr => (hr.1, hr.2.1)), (runs.map (fun hr => hr.2.2.2)).foldr max 0)

/-! ## Report construction (`async_main`, lines 427-449) -/

/-- Embeds one iteration of the report loop of `async_main` (source lines
429-449) for a single host, with datetimes as `Int` seconds: a host with no
resolved author date gets the line `"<host>: <message>"` when its recorded
result is an error and `"<host>: unknown"` otherwise (also when it has no
recorded result at all, via the `revisions.get(host, ...)` default); a host
with a resolved date gets `"<host>: <N> days"` when `now - date` is at
least `maxAge` (with `N` the floor-divided day count, Python
`timedelta.days`) and no line otherwise. -/
def report_line (now maxAge : Int) (revisions : List (String × RevisionResult))
    (author_dates : List (String × Int)) (host : String) : Option String :=
  match List.lookup host author_dates with
  | none =>
      let res := (List.lookup host revisions).getD (RevisionResult.mk "" false)
      some (host ++ ": " ++ (if res.error then res.revision_or_message else "unknown"))
  | some ad =>
      if maxAge ≤ now - ad then
        some (host ++ ": " ++ toString (Int.fdiv (now - ad) 86400) ++ " days")
      else none

/-- Embeds the full report loop: one optional line per configured host, in
configuration order. -/
def report_lines (now maxAge : Int) (hostNames : List String)
    (revisions : List (String × RevisionResult)) (author_dates : List (String × Int)) :
    List String :=
  hostNames.filterMap (report_line now maxAge revisions author_dates)

/-! ## Notification gate (`async_main`, lines 396-404) -/

/-- Embeds the gate at the top of `async_main` (source lines 396-404):
returns `true` exactly when the run proceeds to the query phase.  Without
the force flag, a stored last-notification timestamp closer to `now` than
`interval` makes the function return before `get_all_nixos_revisions` is
ever called; with the force flag the timestamp is not even read. -/
def notification_gate (force : Bool) (last : Option Int) (now interval : Int) : Bool :=
  if force then true
  else
    match last with
    | none => true
    | some l => if now - l < interval then false else true

/-! ## Path containment (`safe_join`, lines 141-146) -/

/-- Splits a character list at every `/`. -/
def splitSlashAux : List Char → List Char → List String
  | [], acc => [String.mk acc.reverse]
  | c :: rest, acc =>
      if c = '/' then String.mk acc.reverse :: splitSlashAux rest []
      else splitSlashAux rest (c :: acc)

/-- Embeds how `pathlib` splits the string operand of `Path.__truediv__`:
split on `/`, dropping empty components and `.` components (`..` is kept
and handled later by `resolve`). -/
def splitPath (b : String) : List String :=
  (splitSlashAux b.data []).filter (fun c => c != "" && c != ".")

/-- Whether a path string is absolute (starts with `/`). -/
def isAbsPath (b : String) : Bool :=
  match b.data with
  | [] => false
  | c :: _ => c = '/'

/-- Embeds the lexical part of `Path.resolve()` on an absolute component
list: a `..` component removes the preceding component (at the root it is
a no-op, as `/.. = /`). -/
def normalizeComponents (cs : List String) : List String :=
  cs.foldl (fun acc c => if c = ".." then acc.dropLast else acc ++ [c]) []

/-- Embeds `(a / b).resolve()` for an absolute, already-resolved directory
`a` (component list from the root) and a string `b`: an absolute `b`
replaces `a` entirely, otherwise the components are appended; then `..`
components are resolved away.  (Symlinks are not modelled.) -/
def resolvePath (a : List String) (b : String) : List String :=
  if isAbsPath b then normalizeComponents (splitPath b)
  else normalizeComponents (a ++ splitPath b)

/-- Embeds `safe_join` (source lines 141-146): resolve the join and assert
`c.is_relative_to(a)`, i.e. that the components of `a` are a prefix of the
components of the resolved path.  `none` models the `AssertionError`. -/
def safe_join (a : List String) (b : String) : Option (List String) :=
  let c := resolvePath a b
  if a.isPrefixOf c then some c else none

/-- `c` lies strictly below directory `a`: `a` is a proper prefix of `c`. -/
def strictlyBelow (a c : List String) : Bool :=
  a.isPrefixOf c && c != a

/-- A concrete commit-info cache directory used by concrete instances:
`$HOME/.cache/nixos-update-reminder/commit-info`. -/
def exDir : List String :=
  ["home", "user", ".cache", "nixos-update-reminder", "commit-info"]

/-! ## Helper lemmas -/

theorem lookup_map_snd {β γ : Type} (g : β → γ) (k : String) (l : List (String × β)) :
    List.lookup k (l.map (fun p => (p.1, g p.2))) = Option.map g (List.lookup k l) := by
  induction l with
  | nil => rfl
  | cons p rest ih =>
      obtain ⟨pk, pv⟩ := p
      simp only [List.map_cons, List.lookup]
      cases h : k == pk <;> simp [h, ih]

theorem lookup_get_all (deadline : Nat) (hosts : List (String × ProcBehavior)) (host : String)
    (b : ProcBehavior) (hfind : List.lookup host hosts = some b) :
    List.lookup host (get_all_nixos_revisions deadline hosts) =
      some (run_and_store deadline b) := by
  unfold get_all_nixos_revisions
  rw [lookup_map_snd (run_and_store deadline) host hosts, hfind]
  rfl

/-! ## C5 -/

/-- C5: for every host whose configured command prints text `T` to standard
output and exits with status 0 within the query timeout (and whose spawn
succeeded and whose output decodes as ASCII), the recorded result equals
`RevisionResult(T stripped of surrounding whitespace, error=false)`. -/
theorem C5_success_result (deadline : Nat) (hosts : List (String × ProcBehavior))
    (host : String) (b : ProcBehavior)
    (hfind : List.lookup host hosts = some b)
    (hspawn : b.spawnOk = true) (htime : b.finishTime ≤ deadline)
    (hexit : b.exitCode = 0) (hascii : isAscii (pyStrip b.stdout) = true) :
    List.lookup host (get_all_nixos_revisions deadline hosts)
      = some (RevisionResult.mk (pyStrip b.stdout) false) := by
  rw [lookup_get_all deadline hosts host b hfind]
  unfold run_and_store get_nixos_revision
  rw [hspawn, hexit]
  simp [Nat.not_lt.mpr htime, hascii]

/-- Witness for C5: a command that prints `" ABC123\n"` and exits 0 at
second 1 of a 30 second deadline is recorded as
`RevisionResult("ABC123", error=false)`. -/
theorem C5_success_result_witness :
    List.lookup "localhost"
        (get_all_nixos_revisions 30 [("localhost", ProcBehavior.mk true 1 " ABC123\n" 0)])
      = some (RevisionResult.mk "ABC123" false) := by
  have h := C5_success_result 30 [("localhost", ProcBehavior.mk true 1 " ABC123\n" 0)]
    "localhost" (ProcBehavior.mk true 1 " ABC123\n" 0) rfl rfl (by decide) rfl (by decide)
  exact h.trans (by decide)

/-! ## C2 -/

/-- C2 counterexample: a host whose query is still pending when the shared
deadline expires (process would finish at second 10, deadline 1 — the
repository's own `test_get_all_nixos_revisions_timeout` scenario) is NOT
left unset in the results map: it records
`RevisionResult("query timed out", error=true)`. -/
theorem C2_counterexample :
    List.lookup "localhost" (get_all_nixos_revisions 1 [("localhost", ProcBehavior.mk true 10 "" 0)])
        = some (RevisionResult.mk "query timed out" true)
    ∧ ¬ (List.lookup "localhost"
          (get_all_nixos_revisions 1 [("localhost", ProcBehavior.mk true 10 "" 0)]) = none) := by
  constructor
  · decide
  · decide

/-- C2 (amended): a host still pending when the shared query deadline
expires is cancelled and records `RevisionResult("query timed out",
error=true)` (after the escalation/settle sequence) before
`get_all_nixos_revisions` returns — it is not left unset; a host that
completed successfully before expiry keeps its success entry unchanged. -/
theorem C2_amended (deadline : Nat) (hosts : List (String × ProcBehavior)) (host : String)
    (b : ProcBehavior) (hfind : List.lookup host hosts = some b) :
    (b.spawnOk = true → deadline < b.finishTime →
      List.lookup host (get_all_nixos_revisions deadline hosts)
        = some (RevisionResult.mk "query timed out" true))
    ∧ (b.finishTime ≤ deadline → b.spawnOk = true → b.exitCode = 0 →
        isAscii (pyStrip b.stdout) = true →
      List.lookup host (get_all_nixos_revisions deadline hosts)
        = some (RevisionResult.mk (pyStrip b.stdout) false)) := by
  constructor
  · intro hspawn hpend
    rw [lookup_get_all deadline hosts host b hfind]
    unfold run_and_store get_nixos_revision
    rw [hspawn]
    simp [hpend]
  · intro htime hspawn hexit hascii
    exact C5_success_result deadline hosts host b hfind hspawn htime hexit hascii

/-- Witness for C2 (amended): with deadline 1, a pending host (finishing at
second 10) records the timed-out entry while a completed host (finishing at
second 0) keeps its revision. -/
theorem C2_amended_witness :
    (List.lookup "slow" (get_all_nixos_revisions 1
        [("slow", ProcBehavior.mk true 10 "" 0), ("fast", ProcBehavior.mk true 0 "abc\n" 0)])
      = some (RevisionResult.mk "query timed out" true))
    ∧ (List.lookup "fast" (get_all_nixos_revisions 1
        [("slow", ProcBehavior.mk true 10 "" 0), ("fast", ProcBehavior.mk true 0 "abc\n" 0)])
      = some (RevisionResult.mk "abc" false)) := by
  constructor
  · exact (C2_amended 1 [("slow", ProcBehavior.mk true 10 "" 0), ("fast", ProcBehavior.mk true 0 "abc\n" 0)]
      "slow" (ProcBehavior.mk true 10 "" 0) rfl).1 rfl (by decide)
  · exact ((C2_amended 1 [("slow", ProcBehavior.mk true 10 "" 0), ("fast", ProcBehavior.mk true 0 "abc\n" 0)]
      "fast" (ProcBehavior.mk true 0 "abc\n" 0) rfl).2 (by decide) rfl rfl (by decide)).trans (by decide)

/-! ## C4 -/

/-- C4 counterexample: when the very first spawn call fails, the exception
does escape `get_nixos_revision`, but it does NOT propagate out of the
host-query phase: `get_all_nixos_revisions` records
`RevisionResult("cannot query", error=true)` for that host and returns
normally. -/
theorem C4_counterexample :
    get_nixos_revision 30 (ProcBehavior.mk false 0 "" 0) = Except.error QueryExc.spawnFail
    ∧ List.lookup "h" (get_all_nixos_revisions 30 [("h", ProcBehavior.mk false 0 "" 0)])
        = some (RevisionResult.mk "cannot query" true) := by
  constructor
  · rfl
  · decide

/-- C4 (amended): a failure of the very first spawn call is logged and
re-raised by `get_nixos_revision`, but the per-host wrapper in
`get_all_nixos_revisions` catches it and converts it into
`RevisionResult("cannot query", error=true)` for that host; the run is not
aborted. -/
theorem C4_amended (deadline : Nat) (hosts : List (String × ProcBehavior)) (host : String)
    (b : ProcBehavior) (hfind : List.lookup host hosts = some b)
    (hspawn : b.spawnOk = false) :
    get_nixos_revision deadline b = Except.error QueryExc.spawnFail
    ∧ List.lookup host (get_all_nixos_revisions deadline hosts)
        = some (RevisionResult.mk "cannot query" true) := by
  constructor
  · unfold get_nixos_revision
    rw [hspawn]
    simp
  · rw [lookup_get_all deadline hosts host b hfind]
    unfold run_and_store get_nixos_revision
    rw [hspawn]
    simp

/-- Witness for C4 (amended): a host whose executable is missing
(spawn fails immediately) gets a `"cannot query"` entry. -/
theorem C4_amended_witness :
    get_nixos_revision 30 (ProcBehavior.mk false 0 "" 0) = Except.error QueryExc.spawnFail
    ∧ List.lookup "h" (get_all_nixos_revisions 30 [("h", ProcBehavior.mk false 0 "" 0)])
        = some (RevisionResult.mk "cannot query" true) :=
  C4_amended 30 [("h", ProcBehavior.mk false 0 "" 0)] "h" (ProcBehavior.mk false 0 "" 0) rfl rfl

/-! ## C3 -/

/-- C3 counterexample: a host whose query succeeded (`error=false`) but for
which the resolver returned no author date is NOT omitted from the report:
it gets the line `"h: unknown"`. -/
theorem C3_counterexample :
    report_line 0 604800 [("h", RevisionResult.mk "abc123" false)] [] "h" = some "h: unknown"
    ∧ ¬ (report_line 0 604800 [("h", RevisionResult.mk "abc123" false)] [] "h" = none) := by
  constructor
  · decide
  · decide

/-- C3 (amended): a host whose query succeeded (result present with
`error=false`) but for which the Commit Resolver returned absent gets the
report line `"<host>: unknown"` — the same line as a host with no recorded
result at all — rather than being omitted. -/
theorem C3_amended (now maxAge : Int) (revisions : List (String × RevisionResult))
    (author_dates : List (String × Int)) (host rev : String)
    (hnd : List.lookup host author_dates = none)
    (hres : List.lookup host revisions = some (RevisionResult.mk rev false)) :
    report_line now maxAge revisions author_dates host = some (host ++ ": " ++ "unknown") := by
  unfold report_line
  rw [hnd, hres]
  rfl

/-- Witness for C3 (amended): concrete successful-query host with no
resolved date is reported as `"h: unknown"`. -/
theorem C3_amended_witness :
    report_line 0 604800 [("h", RevisionResult.mk "abc123" false)] [] "h"
      = some "h: unknown" :=
  (C3_amended 0 604800 [("h", RevisionResult.mk "abc123" false)] [] "h" "abc123" rfl rfl).trans
    (by decide)

/-! ## C6 -/

/-- C6: a host with a resolved author timestamp appears in the report as
`"<host>: <N> days"` (with `N` the floor day count of `now - timestamp`)
exactly when the age is at least `max_time_since_update`, and is omitted
otherwise. -/
theorem C6_age_threshold (now maxAge : Int) (revisions : List (String × RevisionResult))
    (author_dates : List (String × Int)) (host : String) (ad : Int)
    (had : List.lookup host author_dates = some ad) :
    report_line now maxAge revisions author_dates host
      = if maxAge ≤ now - ad then
          some (host ++ ": " ++ toString (Int.fdiv (now - ad) 86400) ++ " days")
        else none := by
  unfold report_line
  rw [had]

/-- Witness for C6: with a 7 day threshold (604800 s), an age of exactly
7 days yields `"h: 7 days"` while an age of 6 days 23 hours (601200 s)
yields no line. -/
theorem C6_age_threshold_witness :
    report_line 604800 604800 [] [("h", (0 : Int))] "h" = some "h: 7 days"
    ∧ report_line 601200 604800 [] [("h", (0 : Int))] "h" = none := by
  constructor
  · exact (C6_age_threshold 604800 604800 [] [("h", (0 : Int))] "h" 0 rfl).trans (by decide)
  · exact (C6_age_threshold 601200 604800 [] [("h", (0 : Int))] "h" 0 rfl).trans (by decide)

/-! ## C7 -/

/-- C7: when the force flag is unset and a stored last-notification
timestamp lies strictly less than `notification_interval` before `now`, the
run returns before any querying; when the force flag is set, the gate
passes regardless of the stored timestamp. -/
theorem C7_notification_gate (last : Option Int) (now interval l : Int) :
    (last = some l → now - l < interval → notification_gate false last now interval = false)
    ∧ notification_gate true last now interval = true := by
  constructor
  · intro hlast hlt
    unfold notification_gate
    rw [hlast]
    simp [hlt]
  · rfl

/-- Witness for C7: a 30 minute old timestamp with a 1 hour interval
suppresses the run when the force flag is unset, and the gate passes with
the force flag set. -/
theorem C7_notification_gate_witness :
    notification_gate false (some 0) 1800 3600 = false
    ∧ notification_gate true (some 0) 1800 3600 = true := by
  constructor
  · exact (C7_notification_gate (some 0) 1800 3600 0).1 rfl (by decide)
  · exact (C7_notification_gate (some 0) 1800 3600 0).2

/-! ## C10 -/

/-- C10 counterexample: the commit string `"."` joins and resolves to the
commit-info cache directory itself; `safe_join` accepts it (its assertion
only checks containment, `c.is_relative_to(a)`), so the path subsequently
opened is not strictly below the cache directory. -/
theorem C10_counterexample :
    safe_join exDir "." = some exDir ∧ strictlyBelow exDir exDir = false := by
  constructor
  · decide
  · decide

/-- C10 (amended): `safe_join` guarantees containment, not strict
containment: every path it returns has the cache directory as a prefix, and
any commit string whose resolved join escapes the directory (e.g. one whose
`..` components climb out) makes the assertion fail (`AssertionError`, no
file access); but a commit string such as `"."` or `""` resolves to the
cache directory itself and is accepted. -/
theorem C10_amended (a : List String) (b : String) (c : List String) :
    (safe_join a b = some c → a.isPrefixOf c = true)
    ∧ (a.isPrefixOf (resolvePath a b) = false → safe_join a b = none) := by
  constructor
  · intro h
    unfold safe_join at h
    by_cases hp : a.isPrefixOf (resolvePath a b)
    · simp only [hp, if_pos] at h
      cases h
      exact hp
    · simp [hp] at h
  · intro h
    unfold safe_join
    simp [h]

/-- Witness for C10 (amended): a hash-shaped commit string resolves to a
path contained in the cache directory, and the escaping string `"../passwd"`
is rejected with an `AssertionError`. -/
theorem C10_amended_witness :
    exDir.isPrefixOf (resolvePath exDir "abc123") = true
    ∧ safe_join exDir "../passwd" = none := by
  constructor
  · exact (C10_amended exDir "abc123" (resolvePath exDir "abc123")).1 (by decide)
  · exact (C10_amended exDir "../passwd" []).2 (by decide)

/-! ## Cache characterization lemmas -/

theorem update_commit_info_timeout (net : Nat → FetchSpec) (t : Nat) (s : SysState)
    (h : t < (net s.fetches).duration) :
    update_commit_info net t s = (none, SysState.mk s.entry (s.fetches + 1), t) := by
  unfold update_commit_info
  simp [h]

theorem update_commit_info_httperror (net : Nat → FetchSpec) (t : Nat) (s : SysState)
    (h1 : ¬ t < (net s.fetches).duration) (h2 : (net s.fetches).result = none) :
    update_commit_info net t s
      = (none, SysState.mk s.entry (s.fetches + 1), (net s.fetches).duration) := by
  unfold update_commit_info
  simp [h1, h2]

theorem update_commit_info_ok (net : Nat → FetchSpec) (t : Nat) (s : SysState) (doc : CommitInfo)
    (h1 : ¬ t < (net s.fetches).duration) (h2 : (net s.fetches).result = some doc) :
    update_commit_info net t s
      = (some doc, SysState.mk (some doc) (s.fetches + 1), (net s.fetches).duration) := by
  unfold update_commit_info
  simp [h1, h2]

theorem update_commit_info_fetches (net : Nat → FetchSpec) (t : Nat) (s : SysState) :
    (update_commit_info net t s).2.1.fetches = s.fetches + 1 := by
  unfold update_commit_info
  by_cases h : t < (net s.fetches).duration
  · simp [h]
  · cases hr : (net s.fetches).result <;> simp [h, hr]

theorem update_commit_info_elapsed_le (net : Nat → FetchSpec) (t : Nat) (s : SysState) :
    (update_commit_info net t s).2.2 ≤ t := by
  unfold update_commit_info
  by_cases h : t < (net s.fetches).duration
  · simp [h]
  · cases hr : (net s.fetches).result <;> simp [h, hr] <;> omega

theorem get_commit_info_hit (commit : String) (net : Nat → FetchSpec) (t : Nat) (s : SysState)
    (info : CommitInfo) (he : s.entry = some info) (hsha : info.sha = some commit) :
    get_commit_info commit net t s = (some info, s, 0) := by
  unfold get_commit_info
  rw [he]
  simp [hsha]

theorem get_commit_info_miss (commit : String) (net : Nat → FetchSpec) (t : Nat) (s : SysState)
    (h : ∀ info, s.entry = some info → ¬ info.sha = some commit) :
    get_commit_info commit net t s = update_commit_info net t s := by
  unfold get_commit_info
  cases hs : s.entry with
  | none => rfl
  | some info => simp [h info hs]

theorem get_commit_info_fetches_le (commit : String) (net : Nat → FetchSpec) (t : Nat)
    (s : SysState) : (get_commit_info commit net t s).2.1.fetches ≤ s.fetches + 1 := by
  unfold get_commit_info
  cases hs : s.entry with
  | none => simpa using Nat.le_of_eq (update_commit_info_fetches net t s)
  | some info =>
      by_cases h : info.sha = some commit
      · simp [h]
      · simpa [h] using Nat.le_of_eq (update_commit_info_fetches net t s)

theorem get_commit_info_elapsed_le (commit : String) (net : Nat → FetchSpec) (t : Nat)
    (s : SysState) : (get_commit_info commit net t s).2.2 ≤ t := by
  unfold get_commit_info
  cases hs : s.entry with
  | none => exact update_commit_info_elapsed_le net t s
  | some info =>
      by_cases h : info.sha = some commit
      · simp [h]
      · simpa [h] using update_commit_info_elapsed_le net t s

theorem get_author_date_forced_fetches (net : Nat → FetchSpec) (t : Nat) (s : SysState) :
    (get_author_date_forced net t s).2.1.fetches = s.fetches + 1 := by
  unfold get_author_date_forced
  rcases hu : update_commit_info net t s with ⟨ci, s1, e1⟩
  have h := update_commit_info_fetches net t s
  rw [hu] at h
  cases ci <;> simpa using h

theorem get_author_date_forced_elapsed_le (net : Nat → FetchSpec) (t : Nat) (s : SysState) :
    (get_author_date_forced net t s).2.2 ≤ t := by
  unfold get_author_date_forced
  rcases hu : update_commit_info net t s with ⟨ci, s1, e1⟩
  have h := update_commit_info_elapsed_le net t s
  rw [hu] at h
  cases ci <;> simpa using h

theorem get_author_date_fetches_le (commit : String) (net : Nat → FetchSpec) (t : Nat)
    (s : SysState) : (get_author_date commit net t s).2.1.fetches ≤ s.fetches + 2 := by
  unfold get_author_date
  rcases hg : get_commit_info commit net t s with ⟨ci, s1, e1⟩
  have h1 := get_commit_info_fetches_le commit net t s
  rw [hg] at h1
  simp only at h1
  cases ci with
  | none => simp only; omega
  | some doc =>
      cases hd : doc.date with
      | some d => simp only [hd]; omega
      | none =>
          rcases hf : get_author_date_forced net t s1 with ⟨r2, s2, e2⟩
          have h2 := get_author_date_forced_fetches net t s1
          rw [hf] at h2
          simp only at h2
          simp only [hd, hf]
          omega

theorem get_author_date_elapsed_le (commit : String) (net : Nat → FetchSpec) (t : Nat)
    (s : SysState) : (get_author_date commit net t s).2.2 ≤ 2 * t := by
  unfold get_author_date
  rcases hg : get_commit_info commit net t s with ⟨ci, s1, e1⟩
  have h1 := get_commit_info_elapsed_le commit net t s
  rw [hg] at h1
  simp only at h1
  cases ci with
  | none => simp only; omega
  | some doc =>
      cases hd : doc.date with
      | some d => simp only [hd]; omega
      | none =>
          rcases hf : get_author_date_forced net t s1 with ⟨r2, s2, e2⟩
          have h2 := get_author_date_forced_elapsed_le net t s1
          rw [hf] at h2
          simp only at h2
          simp only [hd, hf]
          omega

theorem get_and_store_elapsed_le (net : Nat → FetchSpec) (t : Nat) (res : RevisionResult)
    (s : SysState) : (get_and_store net t res s).2.2 ≤ 2 * t := by
  unfold get_and_store
  by_cases h : res.error = true
  · simp [h]
  · simpa [h] using get_author_date_elapsed_le res.revision_or_message net t s

theorem foldr_max_le (B : Nat) (l : List Nat) (h : ∀ x ∈ l, x ≤ B) : l.foldr max 0 ≤ B := by
  induction l with
  | nil => exact Nat.zero_le B
  | cons a l ih =>
      simp only [List.foldr_cons]
      exact max_le (h a (List.mem_cons_self a l)) (ih fun x hx => h x (List.mem_cons_of_mem a hx))

/-! ## C1 -/

/-- C1 counterexample: with an HTTP timeout of 30 seconds, a single host
whose cache is empty and whose fetches each take the full 30 seconds but
return a document with an unparsable `commit.author.date` makes the
commit-resolution phase last 60 seconds (fetch plus self-heal refetch) —
so the phase is not bounded by a shared deadline equal to the HTTP
timeout. -/
theorem C1_counterexample :
    (resolution_phase (fun _ _ => FetchSpec.mk 30 (some (CommitInfo.mk (some "abc") none))) 30
        (fun _ => SysState.mk none 0) [("h", RevisionResult.mk "abc" false)]).2 = 60
    ∧ ¬ ((resolution_phase (fun _ _ => FetchSpec.mk 30 (some (CommitInfo.mk (some "abc") none))) 30
        (fun _ => SysState.mk none 0) [("h", RevisionResult.mk "abc" false)]).2 ≤ 30) := by
  constructor
  · rfl
  · decide

/-- C1 (amended): no top-level timeout wraps the commit-resolution fan-out
(the `try/except TimeoutError` around the gather never fires, because
timeouts are already handled inside `update_commit_info`); instead every
single network fetch is bounded by the HTTP timeout, so the phase is
bounded by twice the HTTP timeout — one initial fetch plus at most one
self-heal refetch per host, with all hosts running concurrently. -/
theorem C1_amended (net : String → Nat → FetchSpec) (t : Nat) (caches : String → SysState)
    (revisions : List (String × RevisionResult)) :
    (resolution_phase net t caches revisions).2 ≤ 2 * t := by
  unfold resolution_phase
  simp only [List.map_map]
  apply foldr_max_le
  intro x hx
  simp only [List.mem_map, Function.comp] at hx
  obtain ⟨hr, _, rfl⟩ := hx
  exact get_and_store_elapsed_le (net hr.1) t hr.2 (caches hr.1)

/-! ## C8 -/

/-- The network behaviour of the C8 counterexample: every fetch succeeds in
5 seconds but returns a document whose `sha` (`"abcdef"`, e.g. GitHub
expanding an abbreviated revision) differs from the requested hash
(`"abc"`). -/
def netMismatch : Nat → FetchSpec :=
  fun _ => FetchSpec.mk 5 (some (CommitInfo.mk (some "abcdef") (some 100)))

/-- C8 counterexample: for the hash `"abc"`, with an empty cache and a
network that (unchangingly) answers with a document whose `sha` is
`"abcdef"`, two successive calls of the read path trigger two network
fetches — the cached document never passes the `sha` cross-check, so the
second call fetches again. -/
theorem C8_counterexample :
    (get_commit_info "abc" netMismatch 30
        ((get_commit_info "abc" netMismatch 30 (SysState.mk none 0)).2.1)).2.1.fetches = 2
    ∧ ¬ ((get_commit_info "abc" netMismatch 30
        ((get_commit_info "abc" netMismatch 30 (SysState.mk none 0)).2.1)).2.1.fetches ≤ 1) := by
  constructor
  · rfl
  · decide

/-- C8 (amended): with no external change (a constant network), two
successive read-path calls for the same hash always return identical
metadata; the "at most one fetch" half holds only when the cache already
holds a validating entry or the fetch succeeds with a document whose `sha`
equals the requested hash — a failed fetch, or a document whose `sha`
differs from the requested hash, causes a network fetch on every call. -/
theorem C8_amended (f : FetchSpec) (t : Nat) (s : SysState) (commit : String) :
    ((get_commit_info commit (fun _ => f) t
        ((get_commit_info commit (fun _ => f) t s).2.1)).1
      = (get_commit_info commit (fun _ => f) t s).1)
    ∧ (((∃ info, s.entry = some info ∧ info.sha = some commit)
        ∨ (f.duration ≤ t ∧ ∃ doc, f.result = some doc ∧ doc.sha = some commit)) →
      (get_commit_info commit (fun _ => f) t
          ((get_commit_info commit (fun _ => f) t s).2.1)).2.1.fetches ≤ s.fetches + 1) := by
  by_cases hhit : ∃ info, s.entry = some info ∧ info.sha = some commit
  · obtain ⟨info, he, hsha⟩ := hhit
    have h1 := get_commit_info_hit commit (fun _ => f) t s info he hsha
    constructor
    · simp [h1]
    · intro _
      simp [h1]
  · have hmiss : ∀ info, s.entry = some info → ¬ info.sha = some commit :=
      fun info he hc => hhit ⟨info, he, hc⟩
    have h1 := get_commit_info_miss commit (fun _ => f) t s hmiss
    by_cases hd : t < f.duration
    · have h2 := update_commit_info_timeout (fun _ => f) t s hd
      have h3 := get_commit_info_miss commit (fun _ => f) t
        (SysState.mk s.entry (s.fetches + 1)) hmiss
      have h4 := update_commit_info_timeout (fun _ => f) t
        (SysState.mk s.entry (s.fetches + 1)) hd
      constructor
      · simp [h1, h2, h3, h4]
      · intro hyp
        exfalso
        rcases hyp with ⟨info, he, hc⟩ | ⟨hle, _⟩
        · exact hmiss info he hc
        · exact hd.not_le hle
    · cases hr : f.result with
      | none =>
          have h2 := update_commit_info_httperror (fun _ => f) t s hd hr
          have h3 := get_commit_info_miss commit (fun _ => f) t
            (SysState.mk s.entry (s.fetches + 1)) hmiss
          have h4 := update_commit_info_httperror (fun _ => f) t
            (SysState.mk s.entry (s.fetches + 1)) hd hr
          constructor
          · simp [h1, h2, h3, h4]
          · intro hyp
            exfalso
            rcases hyp with ⟨info, he, hc⟩ | ⟨_, doc, hdoc, _⟩
            · exact hmiss info he hc
            · exact Option.noConfusion hdoc
      | some doc =>
          have h2 := update_commit_info_ok (fun _ => f) t s doc hd hr
          by_cases hds : doc.sha = some commit
          · have h3 := get_commit_info_hit commit (fun _ => f) t
              (SysState.mk (some doc) (s.fetches + 1)) doc rfl hds
            constructor
            · simp [h1, h2, h3]
            · intro _
              simp [h1, h2, h3]
          · have hmiss2 : ∀ info, (SysState.mk (some doc) (s.fetches + 1)).entry = some info →
                ¬ info.sha = some commit := by
              intro info he hc
              have hid : doc = info := by
                have : some doc = some info := he
                exact Option.some.inj this
              exact hds (hid ▸ hc)
            have h3 := get_commit_info_miss commit (fun _ => f) t
              (SysState.mk (some doc) (s.fetches + 1)) hmiss2
            have h4 := update_commit_info_ok (fun _ => f) t
              (SysState.mk (some doc) (s.fetches + 1)) doc hd hr
            constructor
            · simp [h1, h2, h3, h4]
            · intro hyp
              exfalso
              rcases hyp with ⟨info, he, hc⟩ | ⟨_, doc0, hdoc0, hsha0⟩
              · exact hmiss info he hc
              · have hde : doc = doc0 := Option.some.inj hdoc0
                subst hde
                exact hds hsha0

/-- Witness for C8 (amended): empty cache, constant network answering in
5 seconds with a document whose `sha` equals the requested hash `"abc"`:
the two calls return identical metadata and at most one fetch happens. -/
theorem C8_amended_witness :
    ((get_commit_info "abc" (fun _ => FetchSpec.mk 5 (some (CommitInfo.mk (some "abc") (some 100)))) 30
        ((get_commit_info "abc" (fun _ => FetchSpec.mk 5 (some (CommitInfo.mk (some "abc") (some 100)))) 30
          (SysState.mk none 0)).2.1)).1
      = (get_commit_info "abc" (fun _ => FetchSpec.mk 5 (some (CommitInfo.mk (some "abc") (some 100)))) 30
          (SysState.mk none 0)).1)
    ∧ ((get_commit_info "abc" (fun _ => FetchSpec.mk 5 (some (CommitInfo.mk (some "abc") (some 100)))) 30
        ((get_commit_info "abc" (fun _ => FetchSpec.mk 5 (some (CommitInfo.mk (some "abc") (some 100)))) 30
          (SysState.mk none 0)).2.1)).2.1.fetches ≤ 0 + 1) := by
  have h := C8_amended (FetchSpec.mk 5 (some (CommitInfo.mk (some "abc") (some 100)))) 30
    (SysState.mk none 0) "abc"
  exact ⟨h.1, h.2 (Or.inr ⟨by decide, CommitInfo.mk (some "abc") (some 100), rfl, rfl⟩)⟩

/-! ## C9 -/

/-- C9: when the cache read path returns a cache hit (entry present, `sha`
matching) whose `commit.author.date` is missing or unparsable, the resolver
retries exactly once by forcing a network fetch (exactly one fetch happens
in total); if the forced fetch times out, errors, or yields a document
whose date is again invalid, the resolver returns absent; the forced path
itself never retries (always exactly one fetch), and in general no more
than one extra attempt beyond the read path's own fetch is ever made. -/
theorem C9_retry_once (net : Nat → FetchSpec) (t : Nat) (s : SysState) (commit : String)
    (info : CommitInfo) (hentry : s.entry = some info) (hsha : info.sha = some commit)
    (hdate : info.date = none) :
    ((get_author_date commit net t s).2.1.fetches = s.fetches + 1)
    ∧ (t < (net s.fetches).duration → (get_author_date commit net t s).1 = none)
    ∧ (∀ doc, ¬ t < (net s.fetches).duration → (net s.fetches).result = some doc →
        doc.date = none → (get_author_date commit net t s).1 = none)
    ∧ (∀ s2, (get_author_date_forced net t s2).2.1.fetches = s2.fetches + 1)
    ∧ (∀ s3, (get_author_date commit net t s3).2.1.fetches ≤ s3.fetches + 2) := by
  have hmain : get_author_date commit net t s
      = ((get_author_date_forced net t s).1, (get_author_date_forced net t s).2.1,
         0 + (get_author_date_forced net t s).2.2) := by
    unfold get_author_date
    rw [get_commit_info_hit commit net t s info hentry hsha]
    simp only [hdate]
  refine ⟨?_, ?_, ?_, ?_, ?_⟩
  · rw [hmain]
    exact get_author_date_forced_fetches net t s
  · intro hto
    rw [hmain]
    unfold get_author_date_forced
    rw [update_commit_info_timeout net t s hto]
  · intro doc hnto hdoc hddate
    rw [hmain]
    unfold get_author_date_forced
    rw [update_commit_info_ok net t s doc hnto hdoc]
    simp [hddate]
  · exact get_author_date_forced_fetches net t
  · exact fun s3 => get_author_date_fetches_le commit net t s3

/-- Witness for C9: cache hit for `"abc"` with a dateless entry; the forced
fetch succeeds but again yields a dateless document: exactly one fetch, and
the resolver returns absent. -/
theorem C9_retry_once_witness :
    ((get_author_date "abc" (fun _ => FetchSpec.mk 5 (some (CommitInfo.mk (some "x") none))) 30
        (SysState.mk (some (CommitInfo.mk (some "abc") none)) 0)).2.1.fetches = 0 + 1)
    ∧ ((get_author_date "abc" (fun _ => FetchSpec.mk 5 (some (CommitInfo.mk (some "x") none))) 30
        (SysState.mk (some (CommitInfo.mk (some "abc") none)) 0)).1 = none) := by
  have h := C9_retry_once (fun _ => FetchSpec.mk 5 (some (CommitInfo.mk (some "x") none))) 30
    (SysState.mk (some (CommitInfo.mk (some "abc") none)) 0) "abc"
    (CommitInfo.mk (some "abc") none) rfl rfl rfl
  exact ⟨h.1, h.2.2.1 (CommitInfo.mk (some "x") none) (by decide) rfl rfl⟩
